import Mathlib

/-!
Verification of the vertex-serialization and command-encoding core of the
repository: a shallow embedding of `GrVertexWriter` (src/gpu/GrVertexWriter.h)
and `skgpu::mtl::RenderCommandEncoder`
(experimental/graphite/src/mtl/MtlRenderCommandEncoder.h), together with
theorems settling the specification's testable properties.

Memory is modelled as a total map from byte addresses (`Nat`) to byte values;
`memcpy` copies a list of bytes to consecutive addresses, exactly as the
`memcpy` calls in `GrVertexWriter` do.  POD values are represented by their
byte images (`List Nat`), since `GrVertexWriter` only ever copies their bytes.
Pointers are addresses, with `0` playing the role of `nullptr`.
-/

set_option autoImplicit false

namespace Skia

/-- Byte-addressed memory: each address holds one byte value. -/
abbrev Mem := Nat → Nat

/-- `memcpy mem dst bytes` writes the bytes of `bytes` to consecutive
addresses starting at `dst`, leaving every other address unchanged. -/
def memcpy (mem : Mem) (dst : Nat) : List Nat → Mem
  | [] => mem
  | b :: rest => memcpy (fun a => if a = dst then b else mem a) (dst + 1) rest

/-- Read `n` bytes from memory starting at address `p`. -/
def readBytes (mem : Mem) (p : Nat) : Nat → List Nat
  | 0 => []
  | n + 1 => mem p :: readBytes mem (p + 1) n

/-- `GrVertexWriter`: a bump cursor over caller-owned memory.  `fPtr` is the
current address; address `0` models the null pointer. -/
structure GrVertexWriter where
  fPtr : Nat
deriving DecidableEq

/-- The state a `GrVertexWriter` method acts on: the writer (holding `fPtr`)
together with the memory it writes into. -/
abbrev WState := GrVertexWriter × Mem

/-- One `memcpy`-and-advance step, shared by the scalar and array overloads of
`GrVertexWriter::write`: copy the value's bytes at `fPtr`, then advance `fPtr`
by their size. -/
def writePod (s : WState) (bytes : List Nat) : WState :=
  (⟨s.1.fPtr + bytes.length⟩, memcpy s.2 s.1.fPtr bytes)

/-- `GrVertexColor`: four packed 32-bit words and a wide flag, as accessed by
`GrVertexWriter::write(const GrVertexColor&)`. -/
structure GrVertexColor where
  fColor : Fin 4 → Nat
  fWideColor : Bool

/-- Little-endian byte image of one packed 32-bit color word. -/
def wordBytes (w : Nat) : List Nat :=
  [w % 256, w / 256 % 256, w / 65536 % 256, w / 16777216 % 256]

/-- The argument kinds of the `write` overload set of `GrVertexWriter`:
plain POD values and fixed arrays (both a straight byte copy), `GrVertexColor`
records, `Conditional<T>` wrappers, and `Skip<T>` markers. -/
inductive WItem where
  | pod (bytes : List Nat)
  | color (c : GrVertexColor)
  | condval (condition : Bool) (value : WItem)
  | skip (size : Nat)

/-- Dispatch of a single `write` argument, following the overloads of
`GrVertexWriter::write`: a POD value is `memcpy`ed and the cursor advanced by
its size; a color record writes word 0 and, when wide, words 1..3; a
`Conditional` writes its payload only when its condition holds; a `Skip<T>`
advances the cursor by `sizeof(T)` without touching memory. -/
def write1 : WState → WItem → WState
  | s, .pod bytes => writePod s bytes
  | s, .color c =>
    let s0 := writePod s (wordBytes (c.fColor 0))
    if c.fWideColor then
      writePod (writePod (writePod s0 (wordBytes (c.fColor 1)))
        (wordBytes (c.fColor 2))) (wordBytes (c.fColor 3))
    else s0
  | s, .condval condition value => if condition then write1 s value else s
  | s, .skip size => (⟨s.1.fPtr + size⟩, s.2)

/-- Variadic `GrVertexWriter::write(A, B, C, ...)`: each argument is written
in turn. -/
def write (s : WState) (items : List WItem) : WState :=
  items.foldl write1 s

/-- `GrVertexWriter::writeArray(array, count)` for elements of byte size
`elemSize`: one `memcpy` of `count * elemSize` bytes of the array's contiguous
storage, then a cursor advance by that many bytes. -/
def writeArray (s : WState) (elemSize : Nat) (array : List (List Nat))
    (count : Nat) : WState :=
  (⟨s.1.fPtr + count * elemSize⟩,
    memcpy s.2 s.1.fPtr (array.flatten.take (count * elemSize)))

/-- The argument kinds of `writeQuad`: a `TriStrip<T>` rectangle, a
`TriFan<T>` rectangle, or any ordinary `write` argument, which is emitted
identically at each corner. -/
inductive QItem where
  | plain (v : WItem)
  | triStrip (l t r b : List Nat)
  | triFan (l t r b : List Nat)

/-- `GrVertexWriter::writeQuadValue<corner>`: a plain argument is written
unchanged; a `TriStrip` rectangle contributes, per corner 0..3, the pairs
(l,t), (l,b), (r,t), (r,b); a `TriFan` rectangle contributes (l,t), (l,b),
(r,b), (r,t).  Corners outside 0..3 fall through the `switch` writing
nothing, as in the source. -/
def writeQuadValue (corner : Nat) (s : WState) : QItem → WState
  | .plain v => write1 s v
  | .triStrip l t r b =>
    match corner with
    | 0 => write s [.pod l, .pod t]
    | 1 => write s [.pod l, .pod b]
    | 2 => write s [.pod r, .pod t]
    | 3 => write s [.pod r, .pod b]
    | _ => s
  | .triFan l t r b =>
    match corner with
    | 0 => write s [.pod l, .pod t]
    | 1 => write s [.pod l, .pod b]
    | 2 => write s [.pod r, .pod b]
    | 3 => write s [.pod r, .pod t]
    | _ => s

/-- `GrVertexWriter::writeQuadVert<corner>`: write every argument for one
corner. -/
def writeQuadVert (corner : Nat) (s : WState) (items : List QItem) : WState :=
  items.foldl (writeQuadValue corner) s

/-- `GrVertexWriter::writeQuad`: emit all arguments for corners 0, 1, 2, 3 in
turn. -/
def writeQuad (s : WState) (items : List QItem) : WState :=
  writeQuadVert 3 (writeQuadVert 2 (writeQuadVert 1
    (writeQuadVert 0 s items) items) items) items

/-- Move assignment `GrVertexWriter& operator=(GrVertexWriter&&)`: the
destination takes the source's `fPtr` and the source's `fPtr` becomes null.
The result pairs the new destination with the moved-from source. -/
def GrVertexWriter.moveAssign (_this that : GrVertexWriter) :
    GrVertexWriter × GrVertexWriter :=
  (⟨that.fPtr⟩, ⟨0⟩)

/-- Move construction `GrVertexWriter(GrVertexWriter&&)`: delegates to move
assignment; `uninit` stands for the indeterminate initial `fPtr` of the
freshly constructed object, which move assignment overwrites. -/
def GrVertexWriter.moveCtor (uninit : Nat) (that : GrVertexWriter) :
    GrVertexWriter × GrVertexWriter :=
  GrVertexWriter.moveAssign ⟨uninit⟩ that

/-- `operator==`: two writers compare equal iff they hold the same address. -/
def GrVertexWriter.operatorEq (a b : GrVertexWriter) : Bool :=
  a.fPtr == b.fPtr

/-- `operator bool`: a writer is truthy iff its address is non-null. -/
def GrVertexWriter.operatorBool (a : GrVertexWriter) : Bool :=
  a.fPtr != 0

/-! ### Basic lemmas about the memory model -/

theorem memcpy_of_lt (bytes : List Nat) (mem : Mem) (dst a : Nat)
    (h : a < dst) : memcpy mem dst bytes a = mem a := by
  induction bytes generalizing mem dst with
  | nil => rfl
  | cons b rest ih =>
    show memcpy (fun x => if x = dst then b else mem x) (dst + 1) rest a = mem a
    rw [ih _ _ (Nat.lt_succ_of_lt h)]
    simp [Nat.ne_of_lt h]

theorem readBytes_memcpy_take (bytes : List Nat) (mem : Mem) (p k : Nat)
    (hk : k ≤ bytes.length) :
    readBytes (memcpy mem p bytes) p k = bytes.take k := by
  induction bytes generalizing mem p k with
  | nil =>
    have hz : k = 0 := Nat.le_zero.mp hk
    subst hz
    rfl
  | cons b rest ih =>
    cases k with
    | zero => rfl
    | succ j =>
      show readBytes (memcpy (fun x => if x = p then b else mem x) (p + 1) rest)
          p (j + 1) = b :: rest.take j
      rw [readBytes, memcpy_of_lt _ _ _ _ (Nat.lt_succ_self p),
        ih _ _ _ (Nat.le_of_succ_le_succ hk)]
      simp

theorem readBytes_memcpy (bytes : List Nat) (mem : Mem) (p : Nat) :
    readBytes (memcpy mem p bytes) p bytes.length = bytes := by
  rw [readBytes_memcpy_take _ _ _ _ (Nat.le_refl _), List.take_of_length_le (Nat.le_refl _)]

theorem memcpy_append (b1 b2 : List Nat) (mem : Mem) (p : Nat) :
    memcpy mem p (b1 ++ b2) = memcpy (memcpy mem p b1) (p + b1.length) b2 := by
  induction b1 generalizing mem p with
  | nil => simp [memcpy]
  | cons b rest ih =>
    simp only [List.cons_append, List.length_cons]
    rw [show p + (rest.length + 1) = p + 1 + rest.length from by omega]
    exact ih _ _

theorem writePod_writePod (s : WState) (b1 b2 : List Nat) :
    writePod (writePod s b1) b2 = writePod s (b1 ++ b2) := by
  simp [writePod, memcpy_append, Nat.add_assoc]

theorem write_cons (s : WState) (x : WItem) (xs : List WItem) :
    write s (x :: xs) = write (write1 s x) xs := rfl

theorem write_pods (s : WState) (bs : List (List Nat)) :
    write s (bs.map WItem.pod) = writePod s bs.flatten := by
  induction bs generalizing s with
  | nil =>
    show s = writePod s []
    simp [writePod, memcpy]
  | cons b rest ih =>
    rw [List.map_cons, write_cons]
    show write (writePod s b) (rest.map WItem.pod) = writePod s (b :: rest).flatten
    rw [ih, writePod_writePod, List.flatten_cons]

theorem readBytes_writePod (s : WState) (bytes : List Nat) (k : Nat)
    (hk : k ≤ bytes.length) :
    readBytes (writePod s bytes).2 s.1.fPtr k = bytes.take k := by
  simp [writePod, readBytes_memcpy_take _ _ _ _ hk]

theorem flatten_take_of_sizes (a : List (List Nat)) (k n : Nat)
    (hlen : ∀ e ∈ a, e.length = k) (hn : n ≤ a.length) :
    a.flatten.take (n * k) = (a.take n).flatten ∧
    ((a.take n).flatten).length = n * k := by
  induction a generalizing n with
  | nil =>
    have hz : n = 0 := Nat.le_zero.mp hn
    subst hz
    simp
  | cons e rest ih =>
    cases n with
    | zero => simp
    | succ m =>
      have he : e.length = k := hlen e (List.mem_cons_self e rest)
      have hrest : ∀ x ∈ rest, x.length = k :=
        fun x hx => hlen x (List.mem_cons_of_mem e hx)
      obtain ⟨ih1, ih2⟩ := ih m hrest (Nat.le_of_succ_le_succ hn)
      have harith : (m + 1) * k = e.length + m * k := by rw [he]; ring
      constructor
      · rw [List.flatten_cons, harith, List.take_append, ih1,
          List.take_succ_cons, List.flatten_cons]
      · rw [List.take_succ_cons, List.flatten_cons, List.length_append, ih2,
          harith]

/-! ### Claims about the vertex serializer -/

/-- Claim C3: for every sequence of scalar write calls with value byte sizes
s1..sn, the cursor after the sequence equals the starting address plus
s1 + ... + sn — each write advances the cursor by exactly the written value's
size. -/
theorem write_scalars_cursor_advance (s : WState) (bs : List (List Nat)) :
    (write s (bs.map WItem.pod)).1.fPtr
      = s.1.fPtr + (bs.map List.length).sum := by
  rw [write_pods]
  simp [writePod]

/-- Claim C7: writing a `Conditional` value with condition false leaves the
cursor and the buffer exactly unchanged, and writing it with condition true is
identical to an unconditional write of the wrapped value. -/
theorem conditional_write_semantics (s : WState) (v : WItem) :
    write1 s (WItem.condval false v) = s ∧
    write1 s (WItem.condval true v) = write1 s v := by
  constructor
  · simp [write1]
  · simp [write1]

/-- Claim C8: writing a `GrVertexColor` always writes the first packed word at
the starting address; a narrow record advances the cursor by exactly one
4-byte word, a wide record writes words 1..3 as well and advances the cursor
by exactly four words (16 bytes). -/
theorem color_write_semantics (s : WState) (c : GrVertexColor) :
    (write1 s (WItem.color c)).1.fPtr
      = s.1.fPtr + (if c.fWideColor then 16 else 4) ∧
    readBytes (write1 s (WItem.color c)).2 s.1.fPtr 4 = wordBytes (c.fColor 0) ∧
    readBytes (write1 s (WItem.color c)).2 s.1.fPtr
        (if c.fWideColor then 16 else 4)
      = (if c.fWideColor then
          wordBytes (c.fColor 0) ++ wordBytes (c.fColor 1)
            ++ wordBytes (c.fColor 2) ++ wordBytes (c.fColor 3)
        else wordBytes (c.fColor 0)) := by
  cases hw : c.fWideColor with
  | false =>
    have h1 : write1 s (WItem.color c) = writePod s (wordBytes (c.fColor 0)) := by
      simp [write1, hw]
    rw [h1]
    refine ⟨by simp [writePod, wordBytes], ?_, ?_⟩
    · rw [readBytes_writePod _ _ _ (by simp [wordBytes])]
      simp [wordBytes]
    · simp only [if_neg Bool.false_ne_true]
      rw [readBytes_writePod _ _ _ (by simp [wordBytes])]
      simp [wordBytes]
  | true =>
    have h1 : write1 s (WItem.color c)
        = writePod s (wordBytes (c.fColor 0) ++ wordBytes (c.fColor 1)
            ++ wordBytes (c.fColor 2) ++ wordBytes (c.fColor 3)) := by
      simp [write1, hw, writePod_writePod]
    rw [h1]
    refine ⟨by simp [writePod, wordBytes], ?_, ?_⟩
    · rw [readBytes_writePod _ _ _ (by simp [wordBytes])]
      simp [wordBytes]
    · simp only [if_pos rfl]
      rw [readBytes_writePod _ _ _ (by simp [wordBytes])]
      rw [List.take_of_length_le (by simp [wordBytes])]
      simp

/-- Claim C4: `writeQuad` on a `TriStrip` rectangle (l,t,r,b) emits, for
corners 0,1,2,3 in order, the coordinate pairs (l,t), (l,b), (r,t), (r,b),
and on a `TriFan` rectangle the pairs (l,t), (l,b), (r,b), (r,t); in
particular for l=0, t=0, r=10, b=20 the strip order yields bytes
0,0,0,20,10,0,10,20 and the fan order yields 0,0,0,20,10,20,10,0. -/
theorem writeQuad_rect_corners (s : WState) (l t r b : List Nat) :
    writeQuad s [QItem.triStrip l t r b]
      = write s ([l, t, l, b, r, t, r, b].map WItem.pod) ∧
    writeQuad s [QItem.triFan l t r b]
      = write s ([l, t, l, b, r, b, r, t].map WItem.pod) ∧
    readBytes (writeQuad s [QItem.triStrip l t r b]).2 s.1.fPtr
        ([l, t, l, b, r, t, r, b].map List.length).sum
      = [l, t, l, b, r, t, r, b].flatten ∧
    readBytes (writeQuad s [QItem.triFan l t r b]).2 s.1.fPtr
        ([l, t, l, b, r, b, r, t].map List.length).sum
      = [l, t, l, b, r, b, r, t].flatten ∧
    readBytes (writeQuad ((⟨0⟩ : GrVertexWriter), fun _ => 0)
        [QItem.triStrip [0] [0] [10] [20]]).2 0 8
      = [0, 0, 0, 20, 10, 0, 10, 20] ∧
    readBytes (writeQuad ((⟨0⟩ : GrVertexWriter), fun _ => 0)
        [QItem.triFan [0] [0] [10] [20]]).2 0 8
      = [0, 0, 0, 20, 10, 20, 10, 0] := by
  have hs : writeQuad s [QItem.triStrip l t r b]
      = write s ([l, t, l, b, r, t, r, b].map WItem.pod) := rfl
  have hf : writeQuad s [QItem.triFan l t r b]
      = write s ([l, t, l, b, r, b, r, t].map WItem.pod) := rfl
  refine ⟨hs, hf, ?_, ?_, by decide, by decide⟩
  · rw [hs, write_pods, ← List.length_flatten,
      readBytes_writePod _ _ _ (Nat.le_refl _),
      List.take_of_length_le (Nat.le_refl _)]
  · rw [hf, write_pods, ← List.length_flatten,
      readBytes_writePod _ _ _ (Nat.le_refl _),
      List.take_of_length_le (Nat.le_refl _)]

/-- Claim C9: `writeArray(a, n)` produces the same buffer contents and final
cursor as `n` sequential scalar writes of `a`'s elements in order, and reading
back `n * sizeof(element)` bytes from the starting address yields a
byte-identical copy of those elements. -/
theorem writeArray_eq_sequential_writes (s : WState) (k : Nat)
    (a : List (List Nat)) (n : Nat)
    (hlen : ∀ e ∈ a, e.length = k) (hn : n ≤ a.length) :
    writeArray s k a n = write s ((a.take n).map WItem.pod) ∧
    readBytes (writeArray s k a n).2 s.1.fPtr (n * k) = (a.take n).flatten := by
  obtain ⟨h1, h2⟩ := flatten_take_of_sizes a k n hlen hn
  have heq : writeArray s k a n = writePod s ((a.take n).flatten) := by
    simp [writeArray, writePod, h1, h2]
  constructor
  · rw [heq, write_pods]
  · rw [heq, ← h2, readBytes_writePod _ _ _ (Nat.le_refl _),
      List.take_of_length_le (Nat.le_refl _)]

/-- Witness for claim C9 at a concrete input: two 2-byte elements, both
written and read back. -/
theorem writeArray_eq_sequential_writes_witness :
    (∀ e ∈ ([[1, 2], [3, 4]] : List (List Nat)), e.length = 2) ∧
    2 ≤ ([[1, 2], [3, 4]] : List (List Nat)).length ∧
    (writeArray ((⟨0⟩ : GrVertexWriter), fun _ => 0) 2 [[1, 2], [3, 4]] 2
        = write ((⟨0⟩ : GrVertexWriter), fun _ => 0)
            ((([[1, 2], [3, 4]] : List (List Nat)).take 2).map WItem.pod) ∧
      readBytes (writeArray ((⟨0⟩ : GrVertexWriter), fun _ => 0) 2
          [[1, 2], [3, 4]] 2).2 0 (2 * 2)
        = (([[1, 2], [3, 4]] : List (List Nat)).take 2).flatten) :=
  ⟨by decide, by decide,
    writeArray_eq_sequential_writes _ 2 _ 2 (by decide) (by decide)⟩

/-- Claim C10: after a move (construction or assignment), the destination
holds the source's former address, the moved-from writer's address is null,
its truthiness test is false, and the two compare equal only in the case where
the source's address was already null (so both end up null). -/
theorem moveAssign_semantics (uninit : Nat) (dst src : GrVertexWriter) :
    (GrVertexWriter.moveAssign dst src).1.fPtr = src.fPtr ∧
    (GrVertexWriter.moveAssign dst src).2.fPtr = 0 ∧
    (GrVertexWriter.moveAssign dst src).2.operatorBool = false ∧
    (GrVertexWriter.moveAssign dst src).1.operatorEq
        (GrVertexWriter.moveAssign dst src).2 = (src.fPtr == 0) ∧
    GrVertexWriter.moveCtor uninit src = GrVertexWriter.moveAssign dst src :=
  ⟨rfl, rfl, rfl, rfl, rfl⟩

/-! ### The Metal render command encoder wrapper

`skgpu::mtl::RenderCommandEncoder` wraps one `MTLRenderCommandEncoder` and
caches the last value set for the pipeline state object, the depth/stencil
state object, the triangle fill mode and the scissor rectangle.  Opaque
Objective-C object references (`id`) are modelled as `Option Nat`, with
`none` playing the role of `nil`; the fill-mode enumerator is an `Int`
because the source initializes its cache to `(MTLTriangleFillMode)-1`.  The
calls actually forwarded to the underlying `MTLRenderCommandEncoder` are
recorded in order in a `calls` log. -/

/-- `MTLScissorRect`: four integer fields. -/
structure MTLScissorRect where
  x : Nat
  y : Nat
  width : Nat
  height : Nat
deriving DecidableEq

/-- A call forwarded to the underlying `MTLRenderCommandEncoder` handle. -/
inductive MtlCall where
  | setRenderPipelineState (pso : Option Nat)
  | setTriangleFillMode (fillMode : Int)
  | setFrontFacingWinding (winding : Nat)
  | setDepthStencilState (depthStencilState : Option Nat)
  | setScissorRect (scissorRect : MTLScissorRect)
  | drawPrimitives (primitiveType vertexStart vertexCount : Nat)
  | endEncoding
deriving DecidableEq

/-- The wrapper's tracked state plus the log of forwarded calls. -/
structure RenderCommandEncoder where
  fCurrentRenderPipelineState : Option Nat
  fCurrentDepthStencilState : Option Nat
  fCurrentScissorRect : MTLScissorRect
  fCurrentTriangleFillMode : Int
  calls : List MtlCall
deriving DecidableEq

/-- A freshly constructed encoder, with the member initializers of the
source: both object caches `nil`, scissor rect `{0, 0, 0, 0}`, fill mode
`(MTLTriangleFillMode)-1`, and nothing forwarded yet. -/
def RenderCommandEncoder.make : RenderCommandEncoder :=
  { fCurrentRenderPipelineState := none
    fCurrentDepthStencilState := none
    fCurrentScissorRect := ⟨0, 0, 0, 0⟩
    fCurrentTriangleFillMode := -1
    calls := [] }

/-- `setRenderPipelineState`: forward and update the cache only when the new
object differs from the cached one. -/
def RenderCommandEncoder.setRenderPipelineState (e : RenderCommandEncoder)
    (pso : Option Nat) : RenderCommandEncoder :=
  if e.fCurrentRenderPipelineState ≠ pso then
    { e with calls := e.calls ++ [.setRenderPipelineState pso],
             fCurrentRenderPipelineState := pso }
  else e

/-- `setTriangleFillMode`: forward and update the cache only when the mode
differs from the cached one. -/
def RenderCommandEncoder.setTriangleFillMode (e : RenderCommandEncoder)
    (fillMode : Int) : RenderCommandEncoder :=
  if e.fCurrentTriangleFillMode ≠ fillMode then
    { e with calls := e.calls ++ [.setTriangleFillMode fillMode],
             fCurrentTriangleFillMode := fillMode }
  else e

/-- `setFrontFacingWinding`: always forwarded, no cache. -/
def RenderCommandEncoder.setFrontFacingWinding (e : RenderCommandEncoder)
    (winding : Nat) : RenderCommandEncoder :=
  { e with calls := e.calls ++ [.setFrontFacingWinding winding] }

/-- `setDepthStencilState`: forward and update the cache only when the new
object differs from the cached one. -/
def RenderCommandEncoder.setDepthStencilState (e : RenderCommandEncoder)
    (depthStencilState : Option Nat) : RenderCommandEncoder :=
  if depthStencilState ≠ e.fCurrentDepthStencilState then
    { e with calls := e.calls ++ [.setDepthStencilState depthStencilState],
             fCurrentDepthStencilState := depthStencilState }
  else e

/-- `setScissorRect`: forward and update the cache only when some field of
the rectangle differs from the cached one, comparing field-wise exactly as
the source does. -/
def RenderCommandEncoder.setScissorRect (e : RenderCommandEncoder)
    (scissorRect : MTLScissorRect) : RenderCommandEncoder :=
  if e.fCurrentScissorRect.x ≠ scissorRect.x ∨
      e.fCurrentScissorRect.y ≠ scissorRect.y ∨
      e.fCurrentScissorRect.width ≠ scissorRect.width ∨
      e.fCurrentScissorRect.height ≠ scissorRect.height then
    { e with calls := e.calls ++ [.setScissorRect scissorRect],
             fCurrentScissorRect := scissorRect }
  else e

/-- `drawPrimitives` (non-indexed, explicit counts): always forwarded. -/
def RenderCommandEncoder.drawPrimitives (e : RenderCommandEncoder)
    (primitiveType vertexStart vertexCount : Nat) : RenderCommandEncoder :=
  { e with calls :=
      e.calls ++ [.drawPrimitives primitiveType vertexStart vertexCount] }

/-- `endEncoding`: forwards the end call; the wrapper keeps no completion
flag. -/
def RenderCommandEncoder.endEncoding (e : RenderCommandEncoder) :
    RenderCommandEncoder :=
  { e with calls := e.calls ++ [.endEncoding] }

/-! ### Stepping lemmas for the cached state setters -/

theorem setRenderPipelineState_of_ne (e : RenderCommandEncoder)
    (pso : Option Nat) (h : e.fCurrentRenderPipelineState ≠ pso) :
    e.setRenderPipelineState pso
      = { e with calls := e.calls ++ [.setRenderPipelineState pso],
                 fCurrentRenderPipelineState := pso } := by
  simp [RenderCommandEncoder.setRenderPipelineState, h]

theorem setRenderPipelineState_of_eq (e : RenderCommandEncoder)
    (pso : Option Nat) (h : e.fCurrentRenderPipelineState = pso) :
    e.setRenderPipelineState pso = e := by
  simp [RenderCommandEncoder.setRenderPipelineState, h]

theorem setScissorRect_of_ne (e : RenderCommandEncoder)
    (r : MTLScissorRect)
    (h : e.fCurrentScissorRect.x ≠ r.x ∨ e.fCurrentScissorRect.y ≠ r.y ∨
      e.fCurrentScissorRect.width ≠ r.width ∨
      e.fCurrentScissorRect.height ≠ r.height) :
    e.setScissorRect r
      = { e with calls := e.calls ++ [.setScissorRect r],
                 fCurrentScissorRect := r } := by
  simp only [RenderCommandEncoder.setScissorRect, if_pos h]

theorem setDepthStencilState_of_ne (e : RenderCommandEncoder)
    (ds : Option Nat) (h : ds ≠ e.fCurrentDepthStencilState) :
    e.setDepthStencilState ds
      = { e with calls := e.calls ++ [.setDepthStencilState ds],
                 fCurrentDepthStencilState := ds } := by
  simp [RenderCommandEncoder.setDepthStencilState, h]

theorem setRPS_forwarded (e : RenderCommandEncoder) (pso : Option Nat)
    (h : e.fCurrentRenderPipelineState ≠ pso) :
    (e.setRenderPipelineState pso).calls.length = e.calls.length + 1 ∧
    (e.setRenderPipelineState pso).fCurrentRenderPipelineState = pso := by
  rw [setRenderPipelineState_of_ne _ _ h]
  exact ⟨by simp, rfl⟩

theorem setScissor_forwarded (e : RenderCommandEncoder) (r : MTLScissorRect)
    (h : e.fCurrentScissorRect.x ≠ r.x ∨ e.fCurrentScissorRect.y ≠ r.y ∨
      e.fCurrentScissorRect.width ≠ r.width ∨
      e.fCurrentScissorRect.height ≠ r.height) :
    (e.setScissorRect r).calls.length = e.calls.length + 1 ∧
    (e.setScissorRect r).fCurrentScissorRect = r := by
  rw [setScissorRect_of_ne _ _ h]
  exact ⟨by simp, rfl⟩

theorem setTriangleFillMode_of_ne (e : RenderCommandEncoder)
    (m : Int) (h : e.fCurrentTriangleFillMode ≠ m) :
    e.setTriangleFillMode m
      = { e with calls := e.calls ++ [.setTriangleFillMode m],
                 fCurrentTriangleFillMode := m } := by
  simp [RenderCommandEncoder.setTriangleFillMode, h]

/-! ### Claims about the encoder session -/

/-- Claim C1, counterexample: the scissor-rectangle cache is initialized to
`{0, 0, 0, 0}`, which is itself a representable scissor rectangle, so the
first `setScissorRect` on a fresh session with exactly that rectangle is NOT
forwarded — the cache is not a sentinel distinct from every legitimate
value. -/
theorem first_setScissorRect_zero_not_forwarded :
    (RenderCommandEncoder.make.setScissorRect ⟨0, 0, 0, 0⟩).calls.length
      = 0 := by decide

/-- Claim C1 as amended: the first state-setting call on a fresh session
forwards exactly when the value passed differs from the initial cache value:
always for the fill mode over its legitimate enumerators (its cache starts at
the out-of-range sentinel `-1`), and for every non-`nil` pipeline or
depth/stencil object (caches start at `nil`); the scissor cache however
starts at the representable rectangle `{0,0,0,0}`, so only a first rectangle
different from `{0,0,0,0}` is forwarded. -/
theorem first_state_set_forwards (p d : Option Nat) (m : Int)
    (r : MTLScissorRect) (hp : p ≠ none) (hd : d ≠ none)
    (hm : m = 0 ∨ m = 1) (hr : r ≠ ⟨0, 0, 0, 0⟩) :
    (RenderCommandEncoder.make.setRenderPipelineState p).calls
      = [.setRenderPipelineState p] ∧
    (RenderCommandEncoder.make.setDepthStencilState d).calls
      = [.setDepthStencilState d] ∧
    (RenderCommandEncoder.make.setTriangleFillMode m).calls
      = [.setTriangleFillMode m] ∧
    (RenderCommandEncoder.make.setScissorRect r).calls
      = [.setScissorRect r] := by
  refine ⟨?_, ?_, ?_, ?_⟩
  · rw [setRenderPipelineState_of_ne _ _ (Ne.symm hp)]
    rfl
  · rw [setDepthStencilState_of_ne _ _ hd]
    rfl
  · have hm' : RenderCommandEncoder.make.fCurrentTriangleFillMode ≠ m := by
      rcases hm with h | h <;> rw [h] <;> decide
    rw [setTriangleFillMode_of_ne _ _ hm']
    rfl
  · have hr' : RenderCommandEncoder.make.fCurrentScissorRect.x ≠ r.x ∨
        RenderCommandEncoder.make.fCurrentScissorRect.y ≠ r.y ∨
        RenderCommandEncoder.make.fCurrentScissorRect.width ≠ r.width ∨
        RenderCommandEncoder.make.fCurrentScissorRect.height ≠ r.height := by
      cases r with
      | mk x y w h =>
        simp only [RenderCommandEncoder.make, ne_eq, MTLScissorRect.mk.injEq,
          not_and] at hr ⊢
        omega
    rw [setScissorRect_of_ne _ _ hr']
    rfl

/-- Witness for the amended claim C1 at concrete first values. -/
theorem first_state_set_forwards_witness :
    (some 1 ≠ (none : Option Nat)) ∧ (some 2 ≠ (none : Option Nat)) ∧
    ((0 : Int) = 0 ∨ (0 : Int) = 1) ∧
    (⟨0, 0, 100, 100⟩ : MTLScissorRect) ≠ ⟨0, 0, 0, 0⟩ ∧
    ((RenderCommandEncoder.make.setRenderPipelineState (some 1)).calls
        = [.setRenderPipelineState (some 1)] ∧
      (RenderCommandEncoder.make.setDepthStencilState (some 2)).calls
        = [.setDepthStencilState (some 2)] ∧
      (RenderCommandEncoder.make.setTriangleFillMode 0).calls
        = [.setTriangleFillMode 0] ∧
      (RenderCommandEncoder.make.setScissorRect ⟨0, 0, 100, 100⟩).calls
        = [.setScissorRect ⟨0, 0, 100, 100⟩]) :=
  ⟨by decide, by decide, by decide, by decide,
    first_state_set_forwards (some 1) (some 2) 0 ⟨0, 0, 100, 100⟩
      (by decide) (by decide) (by decide) (by decide)⟩

/-- Claim C2, counterexample: the session has no completion flag, so an
operation issued after `endEncoding` is still silently forwarded to the
underlying handle — here `setFrontFacingWinding 0` lands in the call log
after the end call instead of being rejected. -/
theorem op_after_endEncoding_forwarded_concretely :
    ((RenderCommandEncoder.make.endEncoding).setFrontFacingWinding 0).calls
      = [.endEncoding, .setFrontFacingWinding 0] := by decide

/-- Claim C2 as amended: `endEncoding` only forwards the end call and records
no closed state, so every further operation on the same session is silently
forwarded to the underlying recording handle exactly as before; staying away
from the session after `endEncoding` is a caller-enforced precondition, not
something the wrapper checks. -/
theorem ops_after_endEncoding_still_forwarded (e : RenderCommandEncoder)
    (winding primitiveType vertexStart vertexCount : Nat) :
    ((e.endEncoding).setFrontFacingWinding winding).calls
      = e.calls ++ [.endEncoding, .setFrontFacingWinding winding] ∧
    ((e.endEncoding).drawPrimitives primitiveType vertexStart
        vertexCount).calls
      = e.calls ++ [.endEncoding,
          .drawPrimitives primitiveType vertexStart vertexCount] ∧
    ((e.endEncoding).endEncoding).calls
      = e.calls ++ [.endEncoding, .endEncoding] := by
  refine ⟨?_, ?_, ?_⟩ <;>
    simp [RenderCommandEncoder.endEncoding,
      RenderCommandEncoder.setFrontFacingWinding,
      RenderCommandEncoder.drawPrimitives]

/-- Claim C5: on one session, setting the same pipeline object twice in a row
issues exactly one underlying call; setting two different objects issues two;
and in a sequence a, b, c, b (with consecutive values distinct) the fourth
set issues a call again, because the cache holds only the immediately prior
value — four calls in all. -/
theorem pipeline_state_caching (p q a b c : Option Nat)
    (hp : p ≠ none) (hpq : p ≠ q) (ha : a ≠ none) (hab : a ≠ b)
    (hbc : b ≠ c) :
    (RenderCommandEncoder.make.setRenderPipelineState p
      |>.setRenderPipelineState p).calls.length = 1 ∧
    (RenderCommandEncoder.make.setRenderPipelineState p
      |>.setRenderPipelineState q).calls.length = 2 ∧
    (RenderCommandEncoder.make.setRenderPipelineState a
      |>.setRenderPipelineState b |>.setRenderPipelineState c
      |>.setRenderPipelineState b).calls.length = 4 := by
  have e0p : RenderCommandEncoder.make.fCurrentRenderPipelineState ≠ p :=
    Ne.symm hp
  have e0a : RenderCommandEncoder.make.fCurrentRenderPipelineState ≠ a :=
    Ne.symm ha
  refine ⟨?_, ?_, ?_⟩
  · obtain ⟨l1, c1⟩ := setRPS_forwarded RenderCommandEncoder.make p e0p
    rw [setRenderPipelineState_of_eq _ _ c1, l1]
    rfl
  · obtain ⟨l1, c1⟩ := setRPS_forwarded RenderCommandEncoder.make p e0p
    obtain ⟨l2, _⟩ := setRPS_forwarded
      (RenderCommandEncoder.make.setRenderPipelineState p) q
      (by rw [c1]; exact hpq)
    rw [l2, l1]
    rfl
  · obtain ⟨l1, c1⟩ := setRPS_forwarded RenderCommandEncoder.make a e0a
    obtain ⟨l2, c2⟩ := setRPS_forwarded
      (RenderCommandEncoder.make.setRenderPipelineState a) b
      (by rw [c1]; exact hab)
    obtain ⟨l3, c3⟩ := setRPS_forwarded
      (RenderCommandEncoder.make.setRenderPipelineState a
        |>.setRenderPipelineState b) c
      (by rw [c2]; exact hbc)
    obtain ⟨l4, _⟩ := setRPS_forwarded
      (RenderCommandEncoder.make.setRenderPipelineState a
        |>.setRenderPipelineState b |>.setRenderPipelineState c) b
      (by rw [c3]; exact Ne.symm hbc)
    rw [l4, l3, l2, l1]
    rfl

/-- Witness for claim C5 at concrete pipeline objects 1, 2, 3. -/
theorem pipeline_state_caching_witness :
    (some 1 ≠ (none : Option Nat)) ∧ (some 1 ≠ (some 2 : Option Nat)) ∧
    (some 1 ≠ (none : Option Nat)) ∧ (some 1 ≠ (some 2 : Option Nat)) ∧
    (some 2 ≠ (some 3 : Option Nat)) ∧
    ((RenderCommandEncoder.make.setRenderPipelineState (some 1)
        |>.setRenderPipelineState (some 1)).calls.length = 1 ∧
      (RenderCommandEncoder.make.setRenderPipelineState (some 1)
        |>.setRenderPipelineState (some 2)).calls.length = 2 ∧
      (RenderCommandEncoder.make.setRenderPipelineState (some 1)
        |>.setRenderPipelineState (some 2) |>.setRenderPipelineState (some 3)
        |>.setRenderPipelineState (some 2)).calls.length = 4) :=
  ⟨by decide, by decide, by decide, by decide, by decide,
    pipeline_state_caching (some 1) (some 2) (some 1) (some 2) (some 3)
      (by decide) (by decide) (by decide) (by decide) (by decide)⟩

/-- Claim C6: scissor-rectangle caching is field-wise: setting
(0,0,100,100) twice from a fresh session issues exactly one underlying call,
while following the first (0,0,100,100) with any rectangle differing in at
least one field issues a second call. -/
theorem scissor_rect_caching (r' : MTLScissorRect)
    (h : r'.x ≠ 0 ∨ r'.y ≠ 0 ∨ r'.width ≠ 100 ∨ r'.height ≠ 100) :
    (RenderCommandEncoder.make.setScissorRect ⟨0, 0, 100, 100⟩
      |>.setScissorRect ⟨0, 0, 100, 100⟩).calls.length = 1 ∧
    (RenderCommandEncoder.make.setScissorRect ⟨0, 0, 100, 100⟩
      |>.setScissorRect r').calls.length = 2 := by
  constructor
  · decide
  · have h1 : (RenderCommandEncoder.make.setScissorRect
        ⟨0, 0, 100, 100⟩).fCurrentScissorRect = ⟨0, 0, 100, 100⟩ := by decide
    have hcond : (RenderCommandEncoder.make.setScissorRect
          ⟨0, 0, 100, 100⟩).fCurrentScissorRect.x ≠ r'.x ∨
        (RenderCommandEncoder.make.setScissorRect
          ⟨0, 0, 100, 100⟩).fCurrentScissorRect.y ≠ r'.y ∨
        (RenderCommandEncoder.make.setScissorRect
          ⟨0, 0, 100, 100⟩).fCurrentScissorRect.width ≠ r'.width ∨
        (RenderCommandEncoder.make.setScissorRect
          ⟨0, 0, 100, 100⟩).fCurrentScissorRect.height ≠ r'.height := by
      rw [h1]
      rcases h with h | h | h | h
      · exact Or.inl (Ne.symm h)
      · exact Or.inr (Or.inl (Ne.symm h))
      · exact Or.inr (Or.inr (Or.inl (Ne.symm h)))
      · exact Or.inr (Or.inr (Or.inr (Ne.symm h)))
    obtain ⟨l2, _⟩ := setScissor_forwarded
      (RenderCommandEncoder.make.setScissorRect ⟨0, 0, 100, 100⟩) r' hcond
    rw [l2]
    decide

/-- Witness for claim C6: shrinking the width from 100 to 50 issues the
second call. -/
theorem scissor_rect_caching_witness :
    ((⟨0, 0, 50, 100⟩ : MTLScissorRect).x ≠ 0 ∨
      (⟨0, 0, 50, 100⟩ : MTLScissorRect).y ≠ 0 ∨
      (⟨0, 0, 50, 100⟩ : MTLScissorRect).width ≠ 100 ∨
      (⟨0, 0, 50, 100⟩ : MTLScissorRect).height ≠ 100) ∧
    ((RenderCommandEncoder.make.setScissorRect ⟨0, 0, 100, 100⟩
        |>.setScissorRect ⟨0, 0, 100, 100⟩).calls.length = 1 ∧
      (RenderCommandEncoder.make.setScissorRect ⟨0, 0, 100, 100⟩
        |>.setScissorRect ⟨0, 0, 50, 100⟩).calls.length = 2) :=
  ⟨by decide, scissor_rect_caching ⟨0, 0, 50, 100⟩ (by decide)⟩

end Skia
